import Mathlib

/-
Verification development for the DeFi data collection and normalization
scripts (src/index.js and src/data_formatter.js).

The JavaScript code is embedded shallowly:
  * JSON-like runtime values become the inductive type JVal.  JavaScript
    null and undefined are distinct constructors, since they coerce
    differently in arithmetic even though both are falsy and both make a
    property access throw.
  * Numbers are modelled as Int.  Every numeric value appearing in the
    claims is an integer that a 64-bit float represents exactly, and no
    claim depends on fractional or NaN behaviour.
  * A JavaScript function that can throw becomes a function into
    Except Unit; .error models an uncaught exception (TypeError or
    RangeError), .ok a normal return.
-/

/-- Model of a JavaScript JSON-like runtime value.  JSON.parse produces
null, booleans, numbers, strings, arrays and objects; undefined arises
from reading a missing property. -/
inductive JVal where
  | null
  | undef
  | bool (b : Bool)
  | num (n : Int)
  | str (s : String)
  | arr (xs : List JVal)
  | obj (fs : List (String × JVal))

/-- JavaScript truthiness.  null, undefined, false, 0 and the empty
string are falsy; arrays and objects are always truthy. -/
def JVal.truthy : JVal → Bool
  | .null => false
  | .undef => false
  | .bool b => b
  | .num n => !(n == 0)
  | .str s => !s.isEmpty
  | .arr _ => true
  | .obj _ => true

/-- A value on which property access throws (null or undefined). -/
def JVal.isNullish : JVal → Bool
  | .null => true
  | .undef => true
  | _ => false

/-- The underlying list of an array value, if it is one.  Used to model
Array.isArray guards followed by .map. -/
def JVal.asArr : JVal → Option (List JVal)
  | .arr xs => some xs
  | _ => none

/-- Whether a value is an object (a mapping). -/
def JVal.isObj : JVal → Bool
  | .obj _ => true
  | _ => false

/-- Property access v.k in a position where the base is known not to be
nullish (or where the source uses optional chaining v?.k): a missing
property reads as undefined; .length works on arrays and strings. -/
def jsGetOpt : JVal → String → JVal
  | .null, _ => .undef
  | .undef, _ => .undef
  | .obj fs, k => (fs.lookup k).getD .undef
  | .arr xs, k => if k = "length" then .num xs.length else .undef
  | .str s, k => if k = "length" then .num s.length else .undef
  | _, _ => JVal.undef

/-- Property access v.k that throws (TypeError) when the base is null or
undefined, as plain (non-optional) access does in JavaScript. -/
def jsGet (v : JVal) (k : String) : Except Unit JVal :=
  if v.isNullish then .error () else .ok (jsGetOpt v k)

/-- Index access v[0] in a guarded position (base known truthy). -/
def jsAt0 : JVal → JVal
  | .arr xs => xs.getD 0 .undef
  | .obj fs => (fs.lookup "0").getD .undef
  | .str s =>
      match s.data with
      | [] => .undef
      | c :: _ => .str (String.mk [c])
  | _ => JVal.undef

/-- JavaScript a || b. -/
def jsOr (a b : JVal) : JVal := if a.truthy then a else b

/-- Object.entries in a guarded position (argument known truthy):
objects give their own fields in insertion order, arrays give indexed
entries, other primitives give no entries. -/
def entriesT : JVal → List (String × JVal)
  | .obj fs => fs
  | .arr xs => xs.enum.map (fun p => (toString p.1, p.2))
  | _ => []

/-- Object.entries on an unguarded argument: throws on null or
undefined, otherwise behaves as entriesT. -/
def entriesE (v : JVal) : Except Unit (List (String × JVal)) :=
  if v.isNullish then .error () else .ok (entriesT v)

/-- Whether a record value carries the given "type" discriminator. -/
def typeIs (r : JVal) (s : String) : Bool :=
  match jsGetOpt r "type" with
  | .str t => t == s
  | _ => false

/-- Sequential map that aborts at the first thrown exception, as
Array.prototype.map does when the callback throws. -/
def mapE (f : α → Except Unit β) : List α → Except Unit (List β)
  | [] => .ok []
  | x :: xs => do
      let y ← f x
      let ys ← mapE f xs
      pure (y :: ys)

/-- Sequential flat map aborting at the first thrown exception, as
nested forEach loops that push onto an accumulator do. -/
def flatMapE (f : α → Except Unit (List β)) : List α → Except Unit (List β)
  | [] => .ok []
  | x :: xs => do
      let ys ← f x
      let rest ← flatMapE f xs
      pure (ys ++ rest)

/-- The expression data.metadata.collection_info.timestamp as every
formatter evaluates it: each step throws if the base is nullish. -/
def collectionTs (data : JVal) : Except Unit JVal := do
  let md ← jsGet data "metadata"
  let ci ← jsGet md "collection_info"
  jsGet ci "timestamp"

/-- Left-pad a natural number with zeros to the given width. -/
def padNum (w n : Nat) : String :=
  let s := toString n
  String.mk (List.replicate (w - s.length) '0') ++ s

/-- Convert days since 1970-01-01 to a (year, month, day) civil date,
proleptic Gregorian, as the ECMAScript Date algorithms do. -/
def civilFromDays (z : Int) : Int × Nat × Nat :=
  let z2 := z + 719468
  let era : Int := z2.ediv 146097
  let doe : Nat := (z2 - era * 146097).toNat
  let yoe : Nat := (doe - doe / 1460 + doe / 36524 - doe / 146096) / 365
  let y : Int := (yoe : Int) + era * 400
  let doy : Nat := doe - (365 * yoe + yoe / 4 - yoe / 100)
  let mp : Nat := (5 * doy + 2) / 153
  let d : Nat := doy - (153 * mp + 2) / 5 + 1
  let m : Nat := if mp < 10 then mp + 3 else mp - 9
  (if m ≤ 2 then y + 1 else y, m, d)

/-- Render epoch milliseconds in the Date.prototype.toISOString format
YYYY-MM-DDTHH:mm:ss.sssZ (expanded-year form outside 0000..9999). -/
def isoOfEpochMs (ms : Int) : String :=
  let days := ms.ediv 86400000
  let msod := (ms.emod 86400000).toNat
  let ymd := civilFromDays days
  let yearStr :=
    if ymd.1 < 0 then "-" ++ padNum 6 (-ymd.1).toNat
    else if ymd.1 > 9999 then "+" ++ padNum 6 ymd.1.toNat
    else padNum 4 ymd.1.toNat
  yearStr ++ "-" ++ padNum 2 ymd.2.1 ++ "-" ++ padNum 2 ymd.2.2 ++ "T" ++
    padNum 2 (msod / 3600000) ++ ":" ++ padNum 2 (msod % 3600000 / 60000) ++ ":" ++
    padNum 2 (msod % 60000 / 1000) ++ "." ++ padNum 3 (msod % 1000) ++ "Z"

/-- new Date(ms).toISOString(): throws a RangeError outside the
ECMAScript time range of 8.64e15 milliseconds around the epoch. -/
def dateToISOString (ms : Int) : Except Unit String :=
  if ms.natAbs > 8640000000000000 then .error () else .ok (isoOfEpochMs ms)

/-- Numeric coercion as used in ts * 1000: numbers pass through, null
coerces to 0, booleans to 0/1.  undefined coerces to NaN, which makes
the subsequent toISOString throw, so it is modelled as the throw
itself; coercion of strings, arrays and objects is not modelled (no
claim exercises it) and is likewise mapped to the error case. -/
def jsToNum : JVal → Except Unit Int
  | .num n => .ok n
  | .null => .ok 0
  | .bool b => .ok (if b then 1 else 0)
  | _ => .error ()

/-
Embedding of src/data_formatter.js.  Each per-element object literal of
the source becomes a record-builder function; the property reads on the
element never throw once the element is known not to be nullish, so
after the explicit nullish check they are written with jsGetOpt.
Evaluation order of a throw inside the object literal is irrelevant
because the error carries no payload.
-/

/-- The object literal of formatProtocolTvlData (src/data_formatter.js
lines 21-40): reads data.metadata.collection_info.timestamp, then one
field per protocol property; throws iff the metadata chain hits a
nullish base or the protocol element itself is nullish. -/
def tvlFields (protocol : JVal) : List (String × JVal) := [
    ("protocol_name", jsGetOpt protocol "name"),
    ("protocol_id", jsGetOpt protocol "id"),
    ("protocol_symbol", jsGetOpt protocol "symbol"),
    ("protocol_url", jsGetOpt protocol "url"),
    ("description", jsGetOpt protocol "description"),
    ("chain", jsGetOpt protocol "chain"),
    ("category", jsGetOpt protocol "category"),
    ("tvl", jsGetOpt protocol "tvl"),
    ("tvl_change_1d", jsGetOpt protocol "change_1d"),
    ("tvl_change_7d", jsGetOpt protocol "change_7d"),
    ("tvl_change_1m", jsGetOpt protocol "change_1m"),
    ("audits", jsGetOpt protocol "audits"),
    ("audit_note", jsGetOpt protocol "audit_note"),
    ("mcap_tvl", jsGetOpt protocol "mcap_tvl"),
    ("forked", jsGetOpt protocol "forked"),
    ("module", jsGetOpt protocol "module"),
    ("listedAt", jsGetOpt protocol "listedAt")]

/-- The per-protocol arrow function of formatProtocolTvlData: throws
iff the metadata chain hits a nullish base or the protocol element
itself is nullish. -/
def mkTvlRecord (data protocol : JVal) : Except Unit JVal := do
  let ts ← collectionTs data
  if protocol.isNullish then .error () else
  pure (.obj (("timestamp", ts) :: tvlFields protocol))

/-- formatProtocolTvlData (src/data_formatter.js lines 16-41).  The
guard returns [] unless data is truthy and data.data is an array
(Array.isArray subsumes the truthiness test on data.data, since every
array is truthy). -/
def formatProtocolTvlData (data : JVal) : Except Unit (List JVal) :=
  if !data.truthy then .ok [] else
  match (jsGetOpt data "data").asArr with
  | some xs => mapE (mkTvlRecord data) xs
  | none => .ok []

/-- One element of the totalDataChart forEach (src/data_formatter.js
lines 54-60): array destructuring [ts, volume] throws on a
non-iterable element, then new Date(ts * 1000).toISOString(). -/
def histRec (entry : JVal) : Except Unit JVal :=
  match entry with
  | .arr es => do
      let n ← jsToNum (es.getD 0 .undef)
      let iso ← dateToISOString (n * 1000)
      pure (.obj [
        ("timestamp", .str iso),
        ("total_volume", es.getD 1 .undef),
        ("type", .str "historical_total")])
  | _ => .error ()

/-- The historical_total section (src/data_formatter.js lines 53-61):
skipped when totalDataChart is falsy; calling forEach on a truthy
non-array throws. -/
def histPart (dd : JVal) : Except Unit (List JVal) :=
  let tdc := jsGetOpt dd "totalDataChart"
  if tdc.truthy then
    match tdc with
    | .arr xs => mapE histRec xs
    | _ => .error ()
  else .ok []

/-- The object literal pushed per (chain, dex) pair (src/data_formatter.js
lines 68-77); f is data.data.protocols[0], known truthy. -/
def mkDexRec (ts f : JVal) (chain dexName : String) (vol : JVal) : JVal :=
  .obj [
    ("timestamp", ts),
    ("type", .str "dex_specific"),
    ("dex_name", .str dexName),
    ("chain", .str chain),
    ("volume_24h", vol),
    ("volume_24h_change", jsGetOpt f "change_1d"),
    ("volume_7d_change", jsGetOpt f "change_7dover7d"),
    ("volume_30d_change", jsGetOpt f "change_30dover30d")]

/-- The nested Object.entries traversal of breakdown24h
(src/data_formatter.js lines 66-79): the inner Object.entries throws
when a per-chain value is null. -/
def dexSection (ts f : JVal) (breakdown : List (String × JVal)) :
    Except Unit (List JVal) :=
  flatMapE (fun ce => do
    let inner ← entriesE ce.2
    pure (inner.map (fun dv => mkDexRec ts f ce.1 dv.1 dv.2))) breakdown

/-- The dex_specific section (src/data_formatter.js lines 64-80),
guarded by data.data.protocols && data.data.protocols[0] &&
data.data.protocols[0].breakdown24h. -/
def dexPart (ts dd : JVal) : Except Unit (List JVal) :=
  let p := jsGetOpt dd "protocols"
  let f := jsAt0 p
  let b := jsGetOpt f "breakdown24h"
  if p.truthy && f.truthy && b.truthy then dexSection ts f (entriesT b)
  else .ok []

/-- The volume_summary object literal (src/data_formatter.js lines
85-102), fields copied from the first protocol entry. -/
def mkVolumeSummary (ts f : JVal) : JVal :=
  .obj [
    ("timestamp", ts),
    ("type", .str "volume_summary"),
    ("total_24h", jsGetOpt f "total24h"),
    ("total_48h_to_24h", jsGetOpt f "total48hto24h"),
    ("total_7d", jsGetOpt f "total7d"),
    ("total_14d_to_7d", jsGetOpt f "total14dto7d"),
    ("total_30d", jsGetOpt f "total30d"),
    ("total_60d_to_30d", jsGetOpt f "total60dto30d"),
    ("total_1y", jsGetOpt f "total1y"),
    ("total_alltime", jsGetOpt f "totalAllTime"),
    ("average_1y", jsGetOpt f "average1y"),
    ("volume_24h_change", jsGetOpt f "change_1d"),
    ("volume_7d_change", jsGetOpt f "change_7d"),
    ("volume_1m_change", jsGetOpt f "change_1m"),
    ("volume_7d_over_7d_change", jsGetOpt f "change_7dover7d"),
    ("volume_30d_over_30d_change", jsGetOpt f "change_30dover30d")]

/-- The volume_summary section (src/data_formatter.js lines 83-103),
guarded by data.data.protocols && data.data.protocols[0]. -/
def summPart (ts dd : JVal) : List JVal :=
  let p := jsGetOpt dd "protocols"
  if p.truthy && (jsAt0 p).truthy then [mkVolumeSummary ts (jsAt0 p)] else []

/-- formatDexVolumeData (src/data_formatter.js lines 44-106).  After
the guard on data and data.data, line 50 reads the collection
timestamp unconditionally (throwing when metadata is missing), then
the three sections push onto one array in order. -/
def formatDexVolumeData (data : JVal) : Except Unit (List JVal) :=
  if !data.truthy then .ok [] else
  let dd := jsGetOpt data "data"
  if !dd.truthy then .ok [] else do
    let ts ← collectionTs data
    let hist ← histPart dd
    let dex ← dexPart ts dd
    pure (hist ++ dex ++ summPart ts dd)

/-- The object literal of formatYieldPoolData (src/data_formatter.js
lines 114-131); pool.predictions?.x uses optional chaining, so a
missing predictions object gives undefined sub-fields. -/
def yieldFields (pool : JVal) : List (String × JVal) := [
    ("chain", jsGetOpt pool "chain"),
    ("project", jsGetOpt pool "project"),
    ("symbol", jsGetOpt pool "symbol"),
    ("tvl_usd", jsGetOpt pool "tvlUsd"),
    ("apy_base", jsGetOpt pool "apyBase"),
    ("apy_reward", jsGetOpt pool "apyReward"),
    ("apy", jsGetOpt pool "apy"),
    ("reward_tokens", jsGetOpt pool "rewardTokens"),
    ("il_risk", jsGetOpt pool "ilRisk"),
    ("exposure", jsGetOpt pool "exposure"),
    ("predictions", .obj [
      ("predictedClass", jsGetOpt (jsGetOpt pool "predictions") "predictedClass"),
      ("predictedProbability", jsGetOpt (jsGetOpt pool "predictions") "predictedProbability"),
      ("binnedConfidence", jsGetOpt (jsGetOpt pool "predictions") "binnedConfidence")])]

/-- The per-pool arrow function of formatYieldPoolData. -/
def mkYieldRecord (data pool : JVal) : Except Unit JVal := do
  let ts ← collectionTs data
  if pool.isNullish then .error () else
  pure (.obj (("timestamp", ts) :: yieldFields pool))

/-- formatYieldPoolData (src/data_formatter.js lines 109-132): guard on
data, data.data and Array.isArray(data.data.data).  When data.data is
falsy its .data reads as undefined here, which is not an array, so the
single asArr test covers the chained guard. -/
def formatYieldPoolData (data : JVal) : Except Unit (List JVal) :=
  if !data.truthy then .ok [] else
  match (jsGetOpt (jsGetOpt data "data") "data").asArr with
  | some xs => mapE (mkYieldRecord data) xs
  | none => .ok []

/-- The object literal of formatStablecoinData (src/data_formatter.js
lines 140-156). -/
def stableFields (coin : JVal) : List (String × JVal) := [
    ("id", jsGetOpt coin "id"),
    ("name", jsGetOpt coin "name"),
    ("symbol", jsGetOpt coin "symbol"),
    ("price", jsGetOpt coin "price"),
    ("circulating_supply", jsGetOpt coin "circulating"),
    ("market_cap", jsGetOpt coin "peggedUSD"),
    ("chains", jsGetOpt coin "chains"),
    ("peg_type", jsGetOpt coin "pegType"),
    ("peg_mechanism", jsGetOpt coin "pegMechanism"),
    ("price_change_24h", jsGetOpt coin "priceChange24h"),
    ("market_cap_change_24h", jsGetOpt coin "marketCapChange24h"),
    ("circulating_change_24h", jsGetOpt coin "circulatingChange24h"),
    ("circulating_change_7d", jsGetOpt coin "circulatingChange7d"),
    ("circulating_change_1m", jsGetOpt coin "circulatingChange1m")]

/-- The per-asset arrow function of formatStablecoinData. -/
def mkStableRecord (data coin : JVal) : Except Unit JVal := do
  let ts ← collectionTs data
  if coin.isNullish then .error () else
  pure (.obj (("timestamp", ts) :: stableFields coin))

/-- formatStablecoinData (src/data_formatter.js lines 135-157): guard
on data, data.data and Array.isArray(data.data.peggedAssets). -/
def formatStablecoinData (data : JVal) : Except Unit (List JVal) :=
  if !data.truthy then .ok [] else
  match (jsGetOpt (jsGetOpt data "data") "peggedAssets").asArr with
  | some xs => mapE (mkStableRecord data) xs
  | none => .ok []

/-- The object literal of formatProtocolFeeData (src/data_formatter.js
lines 165-174). -/
def feeFields (protocol : JVal) : List (String × JVal) := [
    ("protocol_name", jsGetOpt protocol "name"),
    ("protocol_slug", jsGetOpt protocol "slug"),
    ("category", jsGetOpt protocol "category"),
    ("total_fees_24h", jsGetOpt protocol "totalFees24h"),
    ("total_revenue_24h", jsGetOpt protocol "totalRevenue24h"),
    ("fees_change_24h", jsGetOpt protocol "feesChange24h"),
    ("revenue_change_24h", jsGetOpt protocol "revenueChange24h")]

/-- The per-entry arrow function of formatProtocolFeeData. -/
def mkFeeRecord (data protocol : JVal) : Except Unit JVal := do
  let ts ← collectionTs data
  if protocol.isNullish then .error () else
  pure (.obj (("timestamp", ts) :: feeFields protocol))

/-- formatProtocolFeeData (src/data_formatter.js lines 160-175): guard
on data, data.data and Array.isArray(data.data.protocols). -/
def formatProtocolFeeData (data : JVal) : Except Unit (List JVal) :=
  if !data.truthy then .ok [] else
  match (jsGetOpt (jsGetOpt data "data") "protocols").asArr with
  | some xs => mapE (mkFeeRecord data) xs
  | none => .ok []

/-
Embedding of src/index.js.  Network and filesystem effects are outside
the model: each category fetch is represented by its result, a JVal
that is JVal.null when the fetch failed (fetchData returns null on any
error, lines 15-23).
-/

/-- The summary object returned by fetchAllData (src/index.js lines
106-112). -/
structure FetchSummary where
  protocolCount : JVal
  dexCount : JVal
  poolCount : JVal
  stablecoinCount : JVal
  feeProtocolCount : JVal

/-- fetchAllData (src/index.js lines 90-113), abstracted over the five
fetch results: each count is an optional-chained .length read with
|| 0 defaulting. -/
def fetchAllData (protocols dexVolumes yieldPools stablecoins fees : JVal) :
    FetchSummary :=
  { protocolCount := jsOr (jsGetOpt protocols "length") (.num 0)
    dexCount := jsOr (jsGetOpt (jsGetOpt dexVolumes "protocols") "length") (.num 0)
    poolCount := jsOr (jsGetOpt yieldPools "length") (.num 0)
    stablecoinCount := jsOr (jsGetOpt stablecoins "length") (.num 0)
    feeProtocolCount := jsOr (jsGetOpt (jsGetOpt fees "protocols") "length") (.num 0) }

/-
Embedding of the batch driver processAllData (src/data_formatter.js
lines 178-231).  The filesystem is abstracted: readJsonFile (lines
5-13) is a function from path to JVal returning JVal.null on any read
or parse failure, and the writes performed are collected in order.  A
processor exception is uncaught in the source, so it aborts the
remaining iterations while keeping the writes already performed.
-/

/-- The five fixed (input path, output path, processor) triples
(src/data_formatter.js lines 179-205). -/
def dataFiles : List (String × String × (JVal → Except Unit (List JVal))) :=
  [("data/protocols/tvl/tvl_2025-04-15T22-09-43.110634.json",
    "raw_data/protocols_tvl_raw.json", formatProtocolTvlData),
   ("data/dex/volumes/volumes_2025-04-15T22-09-43.495076.json",
    "raw_data/dex_volumes_raw.json", formatDexVolumeData),
   ("data/yields/pools/pools_2025-04-15T22-09-44.415408.json",
    "raw_data/yield_pools_raw.json", formatYieldPoolData),
   ("data/stablecoins/market/market_2025-04-15T22-09-44.879170.json",
    "raw_data/stablecoins_raw.json", formatStablecoinData),
   ("data/protocols/fees/fees_2025-04-15T22-09-45.145733.json",
    "raw_data/protocol_fees_raw.json", formatProtocolFeeData)]

/-- The forEach loop of processAllData (src/data_formatter.js lines
214-228) over an arbitrary triple list: returns the (path, records)
writes performed in order, and true when a processor exception escaped
(which stops the loop, keeping earlier writes). -/
def runTriples (read : String → JVal) :
    List (String × String × (JVal → Except Unit (List JVal))) →
    List (String × List JVal) × Bool
  | [] => ([], false)
  | t :: ts =>
      let d := read t.1
      if d.truthy then
        match t.2.2 d with
        | .error _ => ([], true)
        | .ok recs =>
            let rest := runTriples read ts
            if recs.length > 0 then ((t.2.1, recs) :: rest.1, rest.2) else rest
      else runTriples read ts

/-- processAllData (src/data_formatter.js lines 178-231): run the five
fixed triples. -/
def processAllData (read : String → JVal) : List (String × List JVal) × Bool :=
  runTriples read dataFiles

/-- The filesystem after a list of whole-file writes: the last write to
a path wins; unwritten paths keep their previous contents. -/
def applyWrites (ws : List (String × List JVal))
    (prev : String → Option (List JVal)) (p : String) : Option (List JVal) :=
  match ws.reverse.find? (fun w => w.1 == p) with
  | some w => some w.2
  | none => prev p

/-
Concrete documents used to instantiate the theorems, shaped like the
persisted collector output that data_formatter.js reads (a payload
under "data" plus collection metadata).
-/

/-- A metadata block carrying the collection timestamp. -/
def sampleMeta : String × JVal :=
  ("metadata", .obj [("collection_info", .obj [("timestamp", .str "2025-04-15T22:09:43.110634")])])

/-- The collection timestamp of sampleMeta. -/
def sampleTs : JVal := .str "2025-04-15T22:09:43.110634"

/-- A well-formed protocol TVL document with two protocol entries. -/
def tvlDoc : JVal := .obj [sampleMeta,
  ("data", .arr [
    .obj [("name", .str "Aave"), ("tvl", .num 100)],
    .obj [("name", .str "Lido"), ("tvl", .num 200)]])]

/-- The first (and only) protocol entry of the sample DEX document,
carrying the breakdown24h of the spec example and summary totals. -/
def dexFirst : JVal := .obj [
  ("breakdown24h", .obj [("ethereum", .obj [("uniswap", .num 500), ("curve", .num 300)])]),
  ("change_1d", .num 1),
  ("change_7dover7d", .num 2),
  ("change_30dover30d", .num 3),
  ("total24h", .num 1000)]

/-- A DEX volume document whose first protocol entry is dexFirst. -/
def dexDoc : JVal := .obj [sampleMeta,
  ("data", .obj [("protocols", .arr [dexFirst])])]

/-- A DEX volume document whose only section is the one-point
totalDataChart of the spec example. -/
def chartDoc : JVal := .obj [sampleMeta,
  ("data", .obj [("totalDataChart", .arr [.arr [.num 1460419200, .num 1000000]])])]

/-- A yield pool document with one pool that has no predictions
field. -/
def yieldDoc : JVal := .obj [sampleMeta,
  ("data", .obj [("data", .arr [.obj [("chain", .str "Ethereum"), ("project", .str "aave")]])])]

/-- A stablecoin document with one pegged asset. -/
def stableDoc : JVal := .obj [sampleMeta,
  ("data", .obj [("peggedAssets", .arr [.obj [("name", .str "Tether"), ("symbol", .str "USDT")]])])]

/-- A protocol fee document with one entry. -/
def feeDoc : JVal := .obj [sampleMeta,
  ("data", .obj [("protocols", .arr [.obj [("name", .str "Uniswap"), ("slug", .str "uniswap")]])])]


/-
General lemmas about the Except monad operations and the embedding.
-/

@[simp]
theorem exc_bind_ok (a : α) (f : α → Except Unit β) :
    (Except.ok a >>= f : Except Unit β) = f a := rfl

@[simp]
theorem exc_bind_err (e : Unit) (f : α → Except Unit β) :
    (Except.error e >>= f : Except Unit β) = .error e := rfl

@[simp]
theorem exc_pure (a : α) : (pure a : Except Unit α) = .ok a := rfl

@[simp]
theorem exc_pure_bind (a : α) (f : α → Except Unit β) :
    ((pure a : Except Unit α) >>= f) = f a := rfl

theorem mapE_ok_length {f : α → Except Unit β} :
    ∀ {xs : List α} {ys : List β}, mapE f xs = .ok ys → ys.length = xs.length := by
  intro xs
  induction xs with
  | nil =>
      intro ys h
      simp [mapE] at h
      subst h
      rfl
  | cons x xs ih =>
      intro ys h
      simp only [mapE] at h
      cases hx : f x with
      | error e => simp [hx] at h
      | ok y =>
          rw [hx, exc_bind_ok] at h
          cases hr : mapE f xs with
          | error e => simp [hr] at h
          | ok ys2 =>
              rw [hr, exc_bind_ok] at h
              simp only [exc_pure, Except.ok.injEq] at h
              subst h
              simp [ih hr]

theorem mapE_ok_mem {f : α → Except Unit β} :
    ∀ {xs : List α} {ys : List β}, mapE f xs = .ok ys →
      ∀ r ∈ ys, ∃ x ∈ xs, f x = .ok r := by
  intro xs
  induction xs with
  | nil =>
      intro ys h
      simp [mapE] at h
      subst h
      intro r hr
      simp at hr
  | cons x xs ih =>
      intro ys h r hr
      simp only [mapE] at h
      cases hx : f x with
      | error e => simp [hx] at h
      | ok y =>
          rw [hx, exc_bind_ok] at h
          cases hm : mapE f xs with
          | error e => simp [hm] at h
          | ok ys2 =>
              rw [hm, exc_bind_ok] at h
              simp only [exc_pure, Except.ok.injEq] at h
              subst h
              rcases List.mem_cons.mp hr with h1 | h2
              · exact ⟨x, List.mem_cons_self x xs, by rw [hx, h1]⟩
              · rcases ih hm r h2 with ⟨x2, hx2, hfx2⟩
                exact ⟨x2, List.mem_cons_of_mem x hx2, hfx2⟩

theorem mapE_mem_ok {f : α → Except Unit β} :
    ∀ {xs : List α} {ys : List β}, mapE f xs = .ok ys →
      ∀ x ∈ xs, ∃ r ∈ ys, f x = .ok r := by
  intro xs
  induction xs with
  | nil =>
      intro ys _ x hx
      simp at hx
  | cons x xs ih =>
      intro ys h z hz
      simp only [mapE] at h
      cases hx : f x with
      | error e => simp [hx] at h
      | ok y =>
          rw [hx, exc_bind_ok] at h
          cases hm : mapE f xs with
          | error e => simp [hm] at h
          | ok ys2 =>
              rw [hm, exc_bind_ok] at h
              simp only [exc_pure, Except.ok.injEq] at h
              subst h
              rcases List.mem_cons.mp hz with h1 | h2
              · exact ⟨y, List.mem_cons_self y ys2, by rw [h1, hx]⟩
              · rcases ih hm z h2 with ⟨r, hr, hfr⟩
                exact ⟨r, List.mem_cons_of_mem y hr, hfr⟩

theorem mapE_ok_of_all {f : α → Except Unit β} :
    ∀ {xs : List α}, (∀ x ∈ xs, ∃ y, f x = .ok y) →
      ∃ ys, mapE f xs = .ok ys ∧ ys.length = xs.length := by
  intro xs
  induction xs with
  | nil => intro _; exact ⟨[], rfl, rfl⟩
  | cons x xs ih =>
      intro h
      rcases h x (List.mem_cons_self x xs) with ⟨y, hy⟩
      rcases ih (fun z hz => h z (List.mem_cons_of_mem x hz)) with ⟨ys, hys, hlen⟩
      refine ⟨y :: ys, ?_, by simp [hlen]⟩
      simp only [mapE]
      rw [hy, exc_bind_ok, hys, exc_bind_ok, exc_pure]

theorem flatMapE_ok_mem {f : α → Except Unit (List β)} :
    ∀ {xs : List α} {out : List β}, flatMapE f xs = .ok out →
      ∀ r ∈ out, ∃ x ∈ xs, ∃ ys, f x = .ok ys ∧ r ∈ ys := by
  intro xs
  induction xs with
  | nil =>
      intro out h
      simp [flatMapE] at h
      subst h
      intro r hr
      simp at hr
  | cons x xs ih =>
      intro out h r hr
      simp only [flatMapE] at h
      cases hx : f x with
      | error e => simp [hx] at h
      | ok ys =>
          rw [hx, exc_bind_ok] at h
          cases hm : flatMapE f xs with
          | error e => simp [hm] at h
          | ok rest =>
              rw [hm, exc_bind_ok] at h
              simp only [exc_pure, Except.ok.injEq] at h
              subst h
              rcases List.mem_append.mp hr with h1 | h2
              · exact ⟨x, List.mem_cons_self x xs, ys, hx, h1⟩
              · rcases ih hm r h2 with ⟨x2, hx2, ys2, hfy, hry⟩
                exact ⟨x2, List.mem_cons_of_mem x hx2, ys2, hfy, hry⟩

/-
Lemmas about the individual formatter pieces.
-/

theorem collectionTs_sample (rest : List (String × JVal)) :
    collectionTs (.obj (sampleMeta :: rest)) = .ok sampleTs := rfl

theorem mkTvlRecord_eq {data : JVal} {ts : JVal} (hts : collectionTs data = .ok ts)
    (p : JVal) (hp : p.isNullish = false) :
    mkTvlRecord data p = .ok (.obj (("timestamp", ts) :: tvlFields p)) := by
  unfold mkTvlRecord
  rw [hts, exc_bind_ok, hp]
  simp

theorem mkYieldRecord_eq {data : JVal} {ts : JVal} (hts : collectionTs data = .ok ts)
    (p : JVal) (hp : p.isNullish = false) :
    mkYieldRecord data p = .ok (.obj (("timestamp", ts) :: yieldFields p)) := by
  unfold mkYieldRecord
  rw [hts, exc_bind_ok, hp]
  simp

theorem mkStableRecord_eq {data : JVal} {ts : JVal} (hts : collectionTs data = .ok ts)
    (p : JVal) (hp : p.isNullish = false) :
    mkStableRecord data p = .ok (.obj (("timestamp", ts) :: stableFields p)) := by
  unfold mkStableRecord
  rw [hts, exc_bind_ok, hp]
  simp

theorem mkFeeRecord_eq {data : JVal} {ts : JVal} (hts : collectionTs data = .ok ts)
    (p : JVal) (hp : p.isNullish = false) :
    mkFeeRecord data p = .ok (.obj (("timestamp", ts) :: feeFields p)) := by
  unfold mkFeeRecord
  rw [hts, exc_bind_ok, hp]
  simp

theorem mkTvlRecord_inv {data p r : JVal} (h : mkTvlRecord data p = .ok r) :
    ∃ ts, collectionTs data = .ok ts ∧ r = .obj (("timestamp", ts) :: tvlFields p) := by
  unfold mkTvlRecord at h
  cases hts : collectionTs data with
  | error u => rw [hts] at h; simp at h
  | ok ts =>
      rw [hts, exc_bind_ok] at h
      cases hp : p.isNullish with
      | true => rw [hp] at h; simp at h
      | false =>
          rw [hp] at h
          simp only [Bool.false_eq_true, if_false, exc_pure, Except.ok.injEq] at h
          exact ⟨ts, rfl, h.symm⟩

theorem mkYieldRecord_inv {data p r : JVal} (h : mkYieldRecord data p = .ok r) :
    ∃ ts, collectionTs data = .ok ts ∧ r = .obj (("timestamp", ts) :: yieldFields p) := by
  unfold mkYieldRecord at h
  cases hts : collectionTs data with
  | error u => rw [hts] at h; simp at h
  | ok ts =>
      rw [hts, exc_bind_ok] at h
      cases hp : p.isNullish with
      | true => rw [hp] at h; simp at h
      | false =>
          rw [hp] at h
          simp only [Bool.false_eq_true, if_false, exc_pure, Except.ok.injEq] at h
          exact ⟨ts, rfl, h.symm⟩

theorem mkStableRecord_inv {data p r : JVal} (h : mkStableRecord data p = .ok r) :
    ∃ ts, collectionTs data = .ok ts ∧ r = .obj (("timestamp", ts) :: stableFields p) := by
  unfold mkStableRecord at h
  cases hts : collectionTs data with
  | error u => rw [hts] at h; simp at h
  | ok ts =>
      rw [hts, exc_bind_ok] at h
      cases hp : p.isNullish with
      | true => rw [hp] at h; simp at h
      | false =>
          rw [hp] at h
          simp only [Bool.false_eq_true, if_false, exc_pure, Except.ok.injEq] at h
          exact ⟨ts, rfl, h.symm⟩

theorem mkFeeRecord_inv {data p r : JVal} (h : mkFeeRecord data p = .ok r) :
    ∃ ts, collectionTs data = .ok ts ∧ r = .obj (("timestamp", ts) :: feeFields p) := by
  unfold mkFeeRecord at h
  cases hts : collectionTs data with
  | error u => rw [hts] at h; simp at h
  | ok ts =>
      rw [hts, exc_bind_ok] at h
      cases hp : p.isNullish with
      | true => rw [hp] at h; simp at h
      | false =>
          rw [hp] at h
          simp only [Bool.false_eq_true, if_false, exc_pure, Except.ok.injEq] at h
          exact ⟨ts, rfl, h.symm⟩

theorem ts_field_cons (ts : JVal) (l : List (String × JVal)) :
    jsGetOpt (.obj (("timestamp", ts) :: l)) "timestamp" = ts := rfl

theorem histRec_shape {e r : JVal} (h : histRec e = .ok r) :
    ∃ iso v, r = .obj [("timestamp", .str iso), ("total_volume", v),
      ("type", .str "historical_total")] := by
  cases e with
  | arr es =>
      simp only [histRec] at h
      cases hn : jsToNum (es.getD 0 .undef) with
      | error u => rw [hn] at h; simp at h
      | ok n =>
          rw [hn, exc_bind_ok] at h
          cases hd : dateToISOString (n * 1000) with
          | error u => rw [hd] at h; simp at h
          | ok iso =>
              rw [hd, exc_bind_ok] at h
              simp only [exc_pure, Except.ok.injEq] at h
              exact ⟨iso, es.getD 1 .undef, h.symm⟩
  | null => simp [histRec] at h
  | undef => simp [histRec] at h
  | bool b => simp [histRec] at h
  | num n => simp [histRec] at h
  | str s => simp [histRec] at h
  | obj fs => simp [histRec] at h

theorem hist_shape_type (iso : String) (v : JVal) :
    typeIs (.obj [("timestamp", .str iso), ("total_volume", v),
      ("type", .str "historical_total")]) "historical_total" = true := rfl

theorem hist_shape_not_dex (iso : String) (v : JVal) :
    typeIs (.obj [("timestamp", .str iso), ("total_volume", v),
      ("type", .str "historical_total")]) "dex_specific" = false := rfl

theorem hist_shape_not_summ (iso : String) (v : JVal) :
    typeIs (.obj [("timestamp", .str iso), ("total_volume", v),
      ("type", .str "historical_total")]) "volume_summary" = false := rfl

theorem mkDexRec_type (ts f : JVal) (c d : String) (v : JVal) :
    typeIs (mkDexRec ts f c d v) "dex_specific" = true := rfl

theorem mkDexRec_not_summ (ts f : JVal) (c d : String) (v : JVal) :
    typeIs (mkDexRec ts f c d v) "volume_summary" = false := rfl

theorem mkDexRec_not_hist (ts f : JVal) (c d : String) (v : JVal) :
    typeIs (mkDexRec ts f c d v) "historical_total" = false := rfl

theorem mkDexRec_timestamp (ts f : JVal) (c d : String) (v : JVal) :
    jsGetOpt (mkDexRec ts f c d v) "timestamp" = ts := rfl

theorem mkVolumeSummary_type (ts f : JVal) :
    typeIs (mkVolumeSummary ts f) "volume_summary" = true := rfl

theorem mkVolumeSummary_not_dex (ts f : JVal) :
    typeIs (mkVolumeSummary ts f) "dex_specific" = false := rfl

theorem mkVolumeSummary_timestamp (ts f : JVal) :
    jsGetOpt (mkVolumeSummary ts f) "timestamp" = ts := rfl

theorem histPart_mem {dd : JVal} {hl : List JVal} (h : histPart dd = .ok hl) :
    ∀ r ∈ hl, ∃ iso v, r = .obj [("timestamp", .str iso), ("total_volume", v),
      ("type", .str "historical_total")] := by
  intro r hr
  unfold histPart at h
  by_cases ht : (jsGetOpt dd "totalDataChart").truthy
  · rw [if_pos ht] at h
    cases hc : jsGetOpt dd "totalDataChart" with
    | arr xs =>
        rw [hc] at h
        rcases mapE_ok_mem h r hr with ⟨e, _, he⟩
        exact histRec_shape he
    | null => rw [hc] at h; simp at h
    | undef => rw [hc] at h; simp at h
    | bool b => rw [hc] at h; simp at h
    | num n => rw [hc] at h; simp at h
    | str s => rw [hc] at h; simp at h
    | obj fs => rw [hc] at h; simp at h
  · rw [if_neg ht] at h
    simp only [Except.ok.injEq] at h
    subst h
    simp at hr

theorem dexPart_mem {ts dd : JVal} {dl : List JVal} (h : dexPart ts dd = .ok dl) :
    ∀ r ∈ dl, ∃ c d v, r = mkDexRec ts (jsAt0 (jsGetOpt dd "protocols")) c d v := by
  intro r hr
  unfold dexPart at h
  by_cases hg : ((jsGetOpt dd "protocols").truthy &&
      (jsAt0 (jsGetOpt dd "protocols")).truthy &&
      (jsGetOpt (jsAt0 (jsGetOpt dd "protocols")) "breakdown24h").truthy) = true
  · rw [if_pos hg] at h
    rcases flatMapE_ok_mem h r hr with ⟨ce, _, ys, hys, hry⟩
    cases he : entriesE ce.2 with
    | error u => rw [he] at hys; simp at hys
    | ok inner =>
        rw [he, exc_bind_ok] at hys
        simp only [exc_pure, Except.ok.injEq] at hys
        subst hys
        rcases List.mem_map.mp hry with ⟨dv, _, hdv⟩
        exact ⟨ce.1, dv.1, dv.2, hdv.symm⟩
  · rw [if_neg hg] at h
    simp only [Except.ok.injEq] at h
    subst h
    simp at hr

theorem dexSection_all_obj {ts f : JVal} :
    ∀ {bd : List (String × JVal)}, (∀ ce ∈ bd, ce.2.isNullish = false) →
      dexSection ts f bd =
        .ok ((bd.map (fun ce =>
          (entriesT ce.2).map (fun dv => mkDexRec ts f ce.1 dv.1 dv.2))).flatten) := by
  intro bd
  induction bd with
  | nil => intro _; rfl
  | cons ce bd ih =>
      intro hall
      have hce : ce.2.isNullish = false := hall ce (List.mem_cons_self ce bd)
      have hrest := ih (fun x hx => hall x (List.mem_cons_of_mem ce hx))
      simp only [dexSection, flatMapE] at *
      rw [show entriesE ce.2 = .ok (entriesT ce.2) by simp [entriesE, hce]]
      simp only [exc_bind_ok, exc_pure_bind, hrest]
      simp

theorem formatDex_ok_parts {data : JVal} {out : List JVal}
    (h1 : data.truthy = true) (h2 : (jsGetOpt data "data").truthy = true)
    (h : formatDexVolumeData data = .ok out) :
    ∃ ts hl dl, collectionTs data = .ok ts ∧
      histPart (jsGetOpt data "data") = .ok hl ∧
      dexPart ts (jsGetOpt data "data") = .ok dl ∧
      out = hl ++ dl ++ summPart ts (jsGetOpt data "data") := by
  unfold formatDexVolumeData at h
  rw [h1] at h
  simp only [Bool.not_true, Bool.false_eq_true, if_false] at h
  rw [h2] at h
  simp only [Bool.not_true, Bool.false_eq_true, if_false] at h
  cases hts : collectionTs data with
  | error u => rw [hts] at h; simp at h
  | ok ts =>
      rw [hts, exc_bind_ok] at h
      cases hh : histPart (jsGetOpt data "data") with
      | error u => rw [hh] at h; simp at h
      | ok hl =>
          rw [hh, exc_bind_ok] at h
          cases hd : dexPart ts (jsGetOpt data "data") with
          | error u => rw [hd] at h; simp at h
          | ok dl =>
              rw [hd, exc_bind_ok] at h
              simp only [exc_pure, Except.ok.injEq] at h
              exact ⟨ts, hl, dl, rfl, rfl, hd, h.symm⟩

/-
Claim theorems.
-/

/-- Claim C1, amended: each of the five transformation rules returns an
empty record sequence, and no exception propagates, when the input
document is absent (null) or fails the container check of the rule
(missing or mistyped expected container).  The original claim also
covered arbitrary malformed documents, but a document that passes the
container check while lacking metadata.collection_info makes the rule
throw (see the counterexample). -/
theorem claim1_guard_empty :
    (formatProtocolTvlData .null = .ok [] ∧ formatDexVolumeData .null = .ok [] ∧
      formatYieldPoolData .null = .ok [] ∧ formatStablecoinData .null = .ok [] ∧
      formatProtocolFeeData .null = .ok []) ∧
    (∀ data, (jsGetOpt data "data").asArr = none →
      formatProtocolTvlData data = .ok []) ∧
    (∀ data, (jsGetOpt data "data").truthy = false →
      formatDexVolumeData data = .ok []) ∧
    (∀ data, (jsGetOpt (jsGetOpt data "data") "data").asArr = none →
      formatYieldPoolData data = .ok []) ∧
    (∀ data, (jsGetOpt (jsGetOpt data "data") "peggedAssets").asArr = none →
      formatStablecoinData data = .ok []) ∧
    (∀ data, (jsGetOpt (jsGetOpt data "data") "protocols").asArr = none →
      formatProtocolFeeData data = .ok []) := by
  refine ⟨⟨rfl, rfl, rfl, rfl, rfl⟩, ?_, ?_, ?_, ?_, ?_⟩
  · intro data h
    unfold formatProtocolTvlData
    by_cases hd : data.truthy <;> simp [hd, h]
  · intro data h
    unfold formatDexVolumeData
    by_cases hd : data.truthy <;> simp [hd, h]
  · intro data h
    unfold formatYieldPoolData
    by_cases hd : data.truthy <;> simp [hd, h]
  · intro data h
    unfold formatStablecoinData
    by_cases hd : data.truthy <;> simp [hd, h]
  · intro data h
    unfold formatProtocolFeeData
    by_cases hd : data.truthy <;> simp [hd, h]

/-- Claim C1 witness: concrete guard-failing documents for each rule
(a non-array data field, a document with no data field at all, and
containers of the wrong kind). -/
theorem claim1_guard_empty_witness :
    formatProtocolTvlData (.obj [("data", .num 5)]) = .ok [] ∧
    formatDexVolumeData (.obj []) = .ok [] ∧
    formatYieldPoolData (.obj [("data", .obj [])]) = .ok [] ∧
    formatStablecoinData (.obj [("data", .obj [])]) = .ok [] ∧
    formatProtocolFeeData (.obj [("data", .obj [])]) = .ok [] :=
  ⟨claim1_guard_empty.2.1 _ rfl, claim1_guard_empty.2.2.1 _ rfl,
   claim1_guard_empty.2.2.2.1 _ rfl, claim1_guard_empty.2.2.2.2.1 _ rfl,
   claim1_guard_empty.2.2.2.2.2 _ rfl⟩

/-- Claim C1 counterexample: the document with body {"data": {}} is
malformed (it lacks the metadata block), yet the DEX volume rule does
not return an empty sequence: reading
data.metadata.collection_info.timestamp on line 50 throws a TypeError,
which propagates out of the rule. -/
theorem claim1_counterexample :
    formatDexVolumeData (.obj [("data", .obj [])]) = .error () := rfl

/-- Claim C4: on a document whose totalDataChart is
[[1460419200, 1000000]], the DEX volume rule outputs exactly one
historical_total record, with the epoch seconds rendered as the
ISO-8601 string 2016-04-12T00:00:00.000Z and total_volume 1000000. -/
theorem claim4_historical_total :
    formatDexVolumeData chartDoc =
      .ok [.obj [("timestamp", .str "2016-04-12T00:00:00.000Z"),
        ("total_volume", .num 1000000), ("type", .str "historical_total")]] := rfl

/-- Claim C8: each of the five transformation rules is a pure function
of its input document: two identical input documents give identical
output sequences. -/
theorem claim8_deterministic (d1 d2 : JVal) (h : d1 = d2) :
    formatProtocolTvlData d1 = formatProtocolTvlData d2 ∧
    formatDexVolumeData d1 = formatDexVolumeData d2 ∧
    formatYieldPoolData d1 = formatYieldPoolData d2 ∧
    formatStablecoinData d1 = formatStablecoinData d2 ∧
    formatProtocolFeeData d1 = formatProtocolFeeData d2 := by
  subst h
  exact ⟨rfl, rfl, rfl, rfl, rfl⟩

/-- Claim C8 witness: the purity statement instantiated at a concrete
document. -/
theorem claim8_deterministic_witness :
    formatProtocolTvlData tvlDoc = formatProtocolTvlData tvlDoc ∧
    formatDexVolumeData tvlDoc = formatDexVolumeData tvlDoc ∧
    formatYieldPoolData tvlDoc = formatYieldPoolData tvlDoc ∧
    formatStablecoinData tvlDoc = formatStablecoinData tvlDoc ∧
    formatProtocolFeeData tvlDoc = formatProtocolFeeData tvlDoc :=
  claim8_deterministic tvlDoc tvlDoc rfl

/-- Claim C5: on a well-formed document (truthy, data an array of
non-nullish protocol objects, metadata chain present) the protocol TVL
rule emits exactly one record per element of the protocol list, and it
emits zero records when the data field is missing from the document. -/
theorem claim5_tvl_count (data ts : JVal) (xs : List JVal)
    (h1 : data.truthy = true)
    (h2 : jsGetOpt data "data" = .arr xs)
    (h3 : collectionTs data = .ok ts)
    (h4 : xs.all (fun p => !p.isNullish) = true) :
    (∃ out, formatProtocolTvlData data = .ok out ∧ out.length = xs.length) ∧
    (∀ d fs, d = JVal.obj fs → fs.lookup "data" = none →
      formatProtocolTvlData d = .ok []) := by
  constructor
  · have hall : ∀ p ∈ xs, ∃ r, mkTvlRecord data p = .ok r := by
      intro p hp
      have hpn : p.isNullish = false := by
        have := List.all_eq_true.mp h4 p hp
        simpa using this
      exact ⟨_, mkTvlRecord_eq h3 p hpn⟩
    rcases mapE_ok_of_all hall with ⟨ys, hys, hlen⟩
    refine ⟨ys, ?_, hlen⟩
    unfold formatProtocolTvlData
    rw [h1]
    simp only [Bool.not_true, Bool.false_eq_true, if_false]
    rw [h2]
    simpa [JVal.asArr] using hys
  · intro d fs hd hnone
    subst hd
    unfold formatProtocolTvlData
    simp [jsGetOpt, hnone, JVal.asArr, JVal.truthy]

/-- Claim C5 witness: the two-protocol sample document yields exactly
two records, and a document without a data field yields none. -/
theorem claim5_tvl_count_witness :
    (∃ out, formatProtocolTvlData tvlDoc = .ok out ∧
      out.length = [JVal.obj [("name", JVal.str "Aave"), ("tvl", JVal.num 100)],
        JVal.obj [("name", JVal.str "Lido"), ("tvl", JVal.num 200)]].length) ∧
    (∀ d fs, d = JVal.obj fs → fs.lookup "data" = none →
      formatProtocolTvlData d = .ok []) :=
  claim5_tvl_count tvlDoc sampleTs _ rfl rfl rfl rfl

/-- The predictions field of a yield record, exposed literally. -/
theorem yield_predictions_field (ts p : JVal) :
    jsGetOpt (.obj (("timestamp", ts) :: yieldFields p)) "predictions" =
      .obj [("predictedClass", jsGetOpt (jsGetOpt p "predictions") "predictedClass"),
        ("predictedProbability", jsGetOpt (jsGetOpt p "predictions") "predictedProbability"),
        ("binnedConfidence", jsGetOpt (jsGetOpt p "predictions") "binnedConfidence")] := rfl

/-- Reading the three sub-fields of a predictions object literal. -/
theorem predictions_obj_get (v1 v2 v3 : JVal) :
    jsGetOpt (.obj [("predictedClass", v1), ("predictedProbability", v2),
      ("binnedConfidence", v3)]) "predictedClass" = v1 ∧
    jsGetOpt (.obj [("predictedClass", v1), ("predictedProbability", v2),
      ("binnedConfidence", v3)]) "predictedProbability" = v2 ∧
    jsGetOpt (.obj [("predictedClass", v1), ("predictedProbability", v2),
      ("binnedConfidence", v3)]) "binnedConfidence" = v3 := ⟨rfl, rfl, rfl⟩

/-- Claim C6: on a well-formed pool list the yield pool rule emits one
record per pool (none dropped); a pool object without a predictions
field yields a record whose three predictions sub-fields are all
undefined; and when the predictions object exists but lacks a
sub-field, the corresponding record field is undefined as well. -/
theorem claim6_yield_predictions (data ts : JVal) (pools : List JVal)
    (h1 : data.truthy = true)
    (h2 : jsGetOpt (jsGetOpt data "data") "data" = .arr pools)
    (h3 : collectionTs data = .ok ts)
    (h4 : pools.all (fun p => !p.isNullish) = true) :
    (∃ out, formatYieldPoolData data = .ok out ∧ out.length = pools.length ∧
      ∀ p ∈ pools, ∀ pfs, p = JVal.obj pfs → pfs.lookup "predictions" = none →
        ∃ r ∈ out, mkYieldRecord data p = .ok r ∧
          jsGetOpt r "predictions" = .obj [("predictedClass", .undef),
            ("predictedProbability", .undef), ("binnedConfidence", .undef)]) ∧
    (∀ p pfs prf r, p = JVal.obj pfs →
      pfs.lookup "predictions" = some (JVal.obj prf) →
      mkYieldRecord data p = .ok r →
      (prf.lookup "predictedClass" = none →
        jsGetOpt (jsGetOpt r "predictions") "predictedClass" = .undef) ∧
      (prf.lookup "predictedProbability" = none →
        jsGetOpt (jsGetOpt r "predictions") "predictedProbability" = .undef) ∧
      (prf.lookup "binnedConfidence" = none →
        jsGetOpt (jsGetOpt r "predictions") "binnedConfidence" = .undef)) := by
  constructor
  · have hall : ∀ p ∈ pools, ∃ r, mkYieldRecord data p = .ok r := by
      intro p hp
      have hpn : p.isNullish = false := by
        have := List.all_eq_true.mp h4 p hp
        simpa using this
      exact ⟨_, mkYieldRecord_eq h3 p hpn⟩
    rcases mapE_ok_of_all hall with ⟨ys, hys, hlen⟩
    have hfmt : formatYieldPoolData data = .ok ys := by
      unfold formatYieldPoolData
      rw [h1]
      simp only [Bool.not_true, Bool.false_eq_true, if_false]
      rw [h2]
      simpa [JVal.asArr] using hys
    refine ⟨ys, hfmt, hlen, ?_⟩
    intro p hp pfs hpfs hnone
    rcases mapE_mem_ok hys p hp with ⟨r, hr, hmk⟩
    refine ⟨r, hr, hmk, ?_⟩
    rcases mkYieldRecord_inv hmk with ⟨ts0, _, hshape⟩
    subst hshape
    subst hpfs
    have hpred : jsGetOpt (JVal.obj pfs) "predictions" = .undef := by
      simp [jsGetOpt, hnone]
    rw [yield_predictions_field, hpred]
    rfl
  · intro p pfs prf r hpfs hsome hmk
    rcases mkYieldRecord_inv hmk with ⟨ts0, _, hshape⟩
    subst hshape
    subst hpfs
    have hpred : jsGetOpt (JVal.obj pfs) "predictions" = .obj prf := by
      simp [jsGetOpt, hsome]
    rw [yield_predictions_field, hpred]
    refine ⟨?_, ?_, ?_⟩ <;> intro hk
    · rw [(predictions_obj_get _ _ _).1]
      simp [jsGetOpt, hk]
    · rw [(predictions_obj_get _ _ _).2.1]
      simp [jsGetOpt, hk]
    · rw [(predictions_obj_get _ _ _).2.2]
      simp [jsGetOpt, hk]

/-- Claim C6 witness: the sample pool without a predictions field
produces exactly one record whose predictions sub-fields are all
undefined. -/
theorem claim6_yield_predictions_witness :
    ∃ out, formatYieldPoolData yieldDoc = .ok out ∧ out.length = 1 ∧
      ∃ r ∈ out, jsGetOpt r "predictions" = .obj [("predictedClass", .undef),
        ("predictedProbability", .undef), ("binnedConfidence", .undef)] := by
  rcases (claim6_yield_predictions yieldDoc sampleTs
      [JVal.obj [("chain", JVal.str "Ethereum"), ("project", JVal.str "aave")]]
      rfl rfl rfl rfl).1 with ⟨out, hf, hl, hpreds⟩
  rcases hpreds (JVal.obj [("chain", JVal.str "Ethereum"), ("project", JVal.str "aave")])
      (List.mem_singleton.mpr rfl) _ rfl rfl with ⟨r, hr, _, hpred⟩
  exact ⟨out, hf, by simpa using hl, r, hr, hpred⟩

/-- Claim C9: the fetch-all summary derives each of its five counts
from the top-level list length of the corresponding payload
(protocols, yield pools and stablecoins are themselves lists; DEX
volumes and fees carry their list under a protocols field), and each
count defaults to zero when that payload is absent (fetch returned
null) or its expected list field is missing. -/
theorem claim9_fetch_summary (p d y s f : JVal) :
    ((p = .null → (fetchAllData p d y s f).protocolCount = .num 0) ∧
     (∀ xs : List JVal, p = .arr xs →
       (fetchAllData p d y s f).protocolCount = .num xs.length)) ∧
    ((y = .null → (fetchAllData p d y s f).poolCount = .num 0) ∧
     (∀ xs : List JVal, y = .arr xs →
       (fetchAllData p d y s f).poolCount = .num xs.length)) ∧
    ((s = .null → (fetchAllData p d y s f).stablecoinCount = .num 0) ∧
     (∀ xs : List JVal, s = .arr xs →
       (fetchAllData p d y s f).stablecoinCount = .num xs.length)) ∧
    ((d = .null → (fetchAllData p d y s f).dexCount = .num 0) ∧
     (∀ fs, d = JVal.obj fs → fs.lookup "protocols" = none →
       (fetchAllData p d y s f).dexCount = .num 0) ∧
     (∀ fs ds, d = JVal.obj fs → fs.lookup "protocols" = some (.arr ds) →
       (fetchAllData p d y s f).dexCount = .num ds.length)) ∧
    ((f = .null → (fetchAllData p d y s f).feeProtocolCount = .num 0) ∧
     (∀ fs, f = JVal.obj fs → fs.lookup "protocols" = none →
       (fetchAllData p d y s f).feeProtocolCount = .num 0) ∧
     (∀ fs ds, f = JVal.obj fs → fs.lookup "protocols" = some (.arr ds) →
       (fetchAllData p d y s f).feeProtocolCount = .num ds.length)) := by
  refine ⟨⟨?_, ?_⟩, ⟨?_, ?_⟩, ⟨?_, ?_⟩, ⟨?_, ?_, ?_⟩, ⟨?_, ?_, ?_⟩⟩
  · intro h; subst h; rfl
  · intro xs h
    subst h
    show jsOr (JVal.num xs.length) (.num 0) = .num xs.length
    by_cases hx : (xs.length : Int) = 0
    · simp [jsOr, JVal.truthy, hx]
    · simp [jsOr, JVal.truthy, hx]
  · intro h; subst h; rfl
  · intro xs h
    subst h
    show jsOr (JVal.num xs.length) (.num 0) = .num xs.length
    by_cases hx : (xs.length : Int) = 0
    · simp [jsOr, JVal.truthy, hx]
    · simp [jsOr, JVal.truthy, hx]
  · intro h; subst h; rfl
  · intro xs h
    subst h
    show jsOr (JVal.num xs.length) (.num 0) = .num xs.length
    by_cases hx : (xs.length : Int) = 0
    · simp [jsOr, JVal.truthy, hx]
    · simp [jsOr, JVal.truthy, hx]
  · intro h; subst h; rfl
  · intro fs h hn
    subst h
    show jsOr (jsGetOpt (jsGetOpt (JVal.obj fs) "protocols") "length") (.num 0) = .num 0
    simp [jsGetOpt, hn, jsOr, JVal.truthy]
  · intro fs ds h hn
    subst h
    show jsOr (jsGetOpt (jsGetOpt (JVal.obj fs) "protocols") "length") (.num 0) = .num ds.length
    rw [show jsGetOpt (JVal.obj fs) "protocols" = .arr ds by simp [jsGetOpt, hn]]
    show jsOr (JVal.num ds.length) (.num 0) = .num ds.length
    by_cases hx : (ds.length : Int) = 0
    · simp [jsOr, JVal.truthy, hx]
    · simp [jsOr, JVal.truthy, hx]
  · intro h; subst h; rfl
  · intro fs h hn
    subst h
    show jsOr (jsGetOpt (jsGetOpt (JVal.obj fs) "protocols") "length") (.num 0) = .num 0
    simp [jsGetOpt, hn, jsOr, JVal.truthy]
  · intro fs ds h hn
    subst h
    show jsOr (jsGetOpt (jsGetOpt (JVal.obj fs) "protocols") "length") (.num 0) = .num ds.length
    rw [show jsGetOpt (JVal.obj fs) "protocols" = .arr ds by simp [jsGetOpt, hn]]
    show jsOr (JVal.num ds.length) (.num 0) = .num ds.length
    by_cases hx : (ds.length : Int) = 0
    · simp [jsOr, JVal.truthy, hx]
    · simp [jsOr, JVal.truthy, hx]

/-- Claim C9 witness: all-null payloads summarize to five zero counts;
one-element payloads count one; an object payload without the
protocols list counts zero. -/
theorem claim9_fetch_summary_witness :
    (fetchAllData .null .null .null .null .null).protocolCount = .num 0 ∧
    (fetchAllData (.arr [.obj []]) .null .null .null .null).protocolCount = .num 1 ∧
    (fetchAllData .null (.obj [("protocols", .arr [.obj [], .obj []])]) .null .null
      .null).dexCount = .num 2 ∧
    (fetchAllData .null (.obj [("allChains", .arr [])]) .null .null .null).dexCount = .num 0 ∧
    (fetchAllData .null .null (.arr []) .null .null).poolCount = .num 0 ∧
    (fetchAllData .null .null .null (.arr [.obj []]) .null).stablecoinCount = .num 1 ∧
    (fetchAllData .null .null .null .null
      (.obj [("protocols", .arr [.obj []])])).feeProtocolCount = .num 1 := by
  refine ⟨(claim9_fetch_summary .null .null .null .null .null).1.1 rfl,
    (claim9_fetch_summary _ .null .null .null .null).1.2 [.obj []] rfl,
    (claim9_fetch_summary .null _ .null .null .null).2.2.2.1.2.2 _ [.obj [], .obj []] rfl rfl,
    (claim9_fetch_summary .null _ .null .null .null).2.2.2.1.2.1 _ rfl rfl,
    (claim9_fetch_summary .null .null _ .null .null).2.1.2 [] rfl,
    (claim9_fetch_summary .null .null .null _ .null).2.2.1.2 [.obj []] rfl,
    (claim9_fetch_summary .null .null .null .null _).2.2.2.2.2.2 _ [.obj []] rfl rfl⟩

theorem runTriples_skip {read : String → JVal} {o : String} :
    ∀ {ts : List (String × String × (JVal → Except Unit (List JVal)))},
      (∀ t ∈ ts, t.2.1 = o →
        ((read t.1).truthy = false ∨ t.2.2 (read t.1) = .ok [])) →
      o ∉ (runTriples read ts).1.map Prod.fst := by
  intro ts
  induction ts with
  | nil => intro _; simp [runTriples]
  | cons t ts ih =>
      intro hall
      have hrest := ih (fun x hx => hall x (List.mem_cons_of_mem t hx))
      simp only [runTriples]
      by_cases hd : (read t.1).truthy
      · rw [if_pos hd]
        cases hp : t.2.2 (read t.1) with
        | error u => simp
        | ok recs =>
            dsimp only
            by_cases hl : recs.length > 0
            · rw [if_pos hl]
              simp only [List.map_cons, List.mem_cons]
              rintro (heq | hmem)
              · rcases hall t (List.mem_cons_self t ts) heq.symm with hfalse | hempty
                · rw [hd] at hfalse; cases hfalse
                · rw [hp] at hempty
                  injection hempty with hempty
                  rw [hempty] at hl
                  simp at hl
              · exact hrest hmem
            · rw [if_neg hl]; exact hrest
      · rw [if_neg hd]; exact hrest

theorem runTriples_writes {read : String → JVal} :
    ∀ {ts : List (String × String × (JVal → Except Unit (List JVal)))}
      {o : String} {r : List JVal},
      (o, r) ∈ (runTriples read ts).1 →
      ∃ t ∈ ts, t.2.1 = o ∧ (read t.1).truthy = true ∧
        t.2.2 (read t.1) = .ok r ∧ r ≠ [] := by
  intro ts
  induction ts with
  | nil => intro o r h; simp [runTriples] at h
  | cons t ts ih =>
      intro o r h
      simp only [runTriples] at h
      by_cases hd : (read t.1).truthy
      · rw [if_pos hd] at h
        cases hp : t.2.2 (read t.1) with
        | error u => rw [hp] at h; simp at h
        | ok recs =>
            rw [hp] at h
            dsimp only at h
            by_cases hl : recs.length > 0
            · rw [if_pos hl] at h
              rcases List.mem_cons.mp h with heq | hmem
              · injection heq with h1 h2
                refine ⟨t, List.mem_cons_self t ts, h1.symm, hd, ?_, ?_⟩
                · rw [hp, ← h2]
                · rw [h2]
                  intro hnil
                  rw [hnil] at hl
                  simp at hl
              · rcases ih hmem with ⟨t2, ht2, rest⟩
                exact ⟨t2, List.mem_cons_of_mem t ht2, rest⟩
            · rw [if_neg hl] at h
              rcases ih h with ⟨t2, ht2, rest⟩
              exact ⟨t2, List.mem_cons_of_mem t ht2, rest⟩
      · rw [if_neg hd] at h
        rcases ih h with ⟨t2, ht2, rest⟩
        exact ⟨t2, List.mem_cons_of_mem t ht2, rest⟩

/-- Claim C10: the batch driver writes the output file of a category
only when the rule of that category produced a non-empty sequence.  When
the rule yields an empty sequence or the input file cannot be read,
no write is performed for that category, so any previously existing
output file is left unchanged; and every write that does happen comes
from a readable input whose rule returned a non-empty sequence. -/
theorem claim10_driver_frame (read : String → JVal)
    (inp outP : String) (proc : JVal → Except Unit (List JVal))
    (hmem : (inp, outP, proc) ∈ dataFiles)
    (hskip : (read inp).truthy = false ∨ proc (read inp) = .ok []) :
    outP ∉ (processAllData read).1.map Prod.fst ∧
    (∀ prev : String → Option (List JVal),
      applyWrites (processAllData read).1 prev outP = prev outP) ∧
    (∀ o r, (o, r) ∈ (processAllData read).1 →
      ∃ t ∈ dataFiles, t.2.1 = o ∧ (read t.1).truthy = true ∧
        t.2.2 (read t.1) = .ok r ∧ r ≠ []) := by
  have hnodup : (dataFiles.map (fun t => t.2.1)).Nodup := by
    simp [dataFiles]
  have hnotin : outP ∉ (processAllData read).1.map Prod.fst := by
    apply runTriples_skip
    intro t ht hto
    have hteq : t = (inp, outP, proc) :=
      List.inj_on_of_nodup_map hnodup ht hmem (by rw [hto])
    rw [hteq]
    exact hskip
  refine ⟨hnotin, ?_, fun o r h => runTriples_writes h⟩
  intro prev
  unfold applyWrites
  rw [show ((processAllData read).1.reverse.find? (fun w => w.1 == outP)) = none from ?_]
  · rw [List.find?_eq_none]
    intro w hw
    simp only [beq_iff_eq]
    intro hweq
    apply hnotin
    rw [← hweq]
    exact List.mem_map_of_mem Prod.fst (List.mem_reverse.mp hw)

/-- Claim C10 witness: with every input unreadable, the driver performs
no write at all, and in particular the TVL output path keeps its
previous contents. -/
theorem claim10_driver_frame_witness :
    "raw_data/protocols_tvl_raw.json" ∉
      (processAllData (fun _ => JVal.null)).1.map Prod.fst ∧
    (∀ prev : String → Option (List JVal),
      applyWrites (processAllData (fun _ => JVal.null)).1 prev
        "raw_data/protocols_tvl_raw.json" = prev "raw_data/protocols_tvl_raw.json") ∧
    (∀ o r, (o, r) ∈ (processAllData (fun _ => JVal.null)).1 →
      ∃ t ∈ dataFiles, t.2.1 = o ∧ ((fun _ => JVal.null) t.1).truthy = true ∧
        t.2.2 ((fun _ => JVal.null) t.1) = .ok r ∧ r ≠ []) :=
  claim10_driver_frame (fun _ => JVal.null)
    "data/protocols/tvl/tvl_2025-04-15T22-09-43.110634.json"
    "raw_data/protocols_tvl_raw.json" formatProtocolTvlData
    (List.mem_cons_self _ _) (Or.inl rfl)

theorem mkVolumeSummary_not_hist (ts f : JVal) :
    typeIs (mkVolumeSummary ts f) "historical_total" = false := rfl

theorem isObj_not_nullish {v : JVal} (h : v.isObj = true) : v.isNullish = false := by
  cases v <;> simp_all [JVal.isObj, JVal.isNullish]

theorem mapE_timestamp {data ts : JVal} {mk : JVal → Except Unit JVal}
    {fields : JVal → List (String × JVal)} {xs : List JVal} {out : List JVal}
    (hts : collectionTs data = .ok ts)
    (hinv : ∀ p r, mk p = .ok r → ∃ ts0, collectionTs data = .ok ts0 ∧
      r = .obj (("timestamp", ts0) :: fields p))
    (h : mapE mk xs = .ok out) :
    ∀ r ∈ out, jsGetOpt r "timestamp" = ts := by
  intro r hr
  rcases mapE_ok_mem h r hr with ⟨p, _, hp⟩
  rcases hinv p r hp with ⟨ts0, hts0, hshape⟩
  rw [hts] at hts0
  injection hts0 with hts0
  subst hshape
  rw [hts0]
  exact ts_field_cons ts0 (fields p)

theorem formatTvl_timestamp {data ts : JVal} {out : List JVal}
    (hts : collectionTs data = .ok ts)
    (h : formatProtocolTvlData data = .ok out) :
    ∀ r ∈ out, jsGetOpt r "timestamp" = ts := by
  unfold formatProtocolTvlData at h
  by_cases hd : data.truthy
  · rw [hd] at h
    simp only [Bool.not_true, Bool.false_eq_true, if_false] at h
    cases ha : (jsGetOpt data "data").asArr with
    | none =>
        rw [ha] at h
        simp only [Except.ok.injEq] at h
        subst h
        intro r hr
        simp at hr
    | some xs =>
        rw [ha] at h
        exact mapE_timestamp hts (fun p r hp => mkTvlRecord_inv hp) h
  · have hdf : data.truthy = false := by simpa using hd
    rw [hdf] at h
    simp only [Bool.not_false, if_true, Except.ok.injEq] at h
    subst h
    intro r hr
    simp at hr

theorem formatYield_timestamp {data ts : JVal} {out : List JVal}
    (hts : collectionTs data = .ok ts)
    (h : formatYieldPoolData data = .ok out) :
    ∀ r ∈ out, jsGetOpt r "timestamp" = ts := by
  unfold formatYieldPoolData at h
  by_cases hd : data.truthy
  · rw [hd] at h
    simp only [Bool.not_true, Bool.false_eq_true, if_false] at h
    cases ha : (jsGetOpt (jsGetOpt data "data") "data").asArr with
    | none =>
        rw [ha] at h
        simp only [Except.ok.injEq] at h
        subst h
        intro r hr
        simp at hr
    | some xs =>
        rw [ha] at h
        exact mapE_timestamp hts (fun p r hp => mkYieldRecord_inv hp) h
  · have hdf : data.truthy = false := by simpa using hd
    rw [hdf] at h
    simp only [Bool.not_false, if_true, Except.ok.injEq] at h
    subst h
    intro r hr
    simp at hr

theorem formatStable_timestamp {data ts : JVal} {out : List JVal}
    (hts : collectionTs data = .ok ts)
    (h : formatStablecoinData data = .ok out) :
    ∀ r ∈ out, jsGetOpt r "timestamp" = ts := by
  unfold formatStablecoinData at h
  by_cases hd : data.truthy
  · rw [hd] at h
    simp only [Bool.not_true, Bool.false_eq_true, if_false] at h
    cases ha : (jsGetOpt (jsGetOpt data "data") "peggedAssets").asArr with
    | none =>
        rw [ha] at h
        simp only [Except.ok.injEq] at h
        subst h
        intro r hr
        simp at hr
    | some xs =>
        rw [ha] at h
        exact mapE_timestamp hts (fun p r hp => mkStableRecord_inv hp) h
  · have hdf : data.truthy = false := by simpa using hd
    rw [hdf] at h
    simp only [Bool.not_false, if_true, Except.ok.injEq] at h
    subst h
    intro r hr
    simp at hr

theorem formatFee_timestamp {data ts : JVal} {out : List JVal}
    (hts : collectionTs data = .ok ts)
    (h : formatProtocolFeeData data = .ok out) :
    ∀ r ∈ out, jsGetOpt r "timestamp" = ts := by
  unfold formatProtocolFeeData at h
  by_cases hd : data.truthy
  · rw [hd] at h
    simp only [Bool.not_true, Bool.false_eq_true, if_false] at h
    cases ha : (jsGetOpt (jsGetOpt data "data") "protocols").asArr with
    | none =>
        rw [ha] at h
        simp only [Except.ok.injEq] at h
        subst h
        intro r hr
        simp at hr
    | some xs =>
        rw [ha] at h
        exact mapE_timestamp hts (fun p r hp => mkFeeRecord_inv hp) h
  · have hdf : data.truthy = false := by simpa using hd
    rw [hdf] at h
    simp only [Bool.not_false, if_true, Except.ok.injEq] at h
    subst h
    intro r hr
    simp at hr

/-- Claim C2, amended: under a well-formed metadata chain with a
non-null collection timestamp, every record of every rule carries a
non-null timestamp; for the protocol TVL, yield pool, stablecoin and
protocol fee rules (and the dex_specific and volume_summary records of
the DEX rule) it equals the collection timestamp; but the
historical_total records of the DEX rule instead carry the ISO-8601
rendering of the epoch seconds of their chart entry (see the
counterexample). -/
theorem claim2_timestamps (data ts : JVal)
    (hts : collectionTs data = .ok ts) (hnn : ts.isNullish = false) :
    (∀ out, formatProtocolTvlData data = .ok out → ∀ r ∈ out,
      jsGetOpt r "timestamp" = ts ∧ (jsGetOpt r "timestamp").isNullish = false) ∧
    (∀ out, formatYieldPoolData data = .ok out → ∀ r ∈ out,
      jsGetOpt r "timestamp" = ts ∧ (jsGetOpt r "timestamp").isNullish = false) ∧
    (∀ out, formatStablecoinData data = .ok out → ∀ r ∈ out,
      jsGetOpt r "timestamp" = ts ∧ (jsGetOpt r "timestamp").isNullish = false) ∧
    (∀ out, formatProtocolFeeData data = .ok out → ∀ r ∈ out,
      jsGetOpt r "timestamp" = ts ∧ (jsGetOpt r "timestamp").isNullish = false) ∧
    (∀ out, formatDexVolumeData data = .ok out → ∀ r ∈ out,
      (jsGetOpt r "timestamp").isNullish = false ∧
      (typeIs r "historical_total" = false → jsGetOpt r "timestamp" = ts)) := by
  refine ⟨?_, ?_, ?_, ?_, ?_⟩
  · intro out h r hr
    have := formatTvl_timestamp hts h r hr
    exact ⟨this, by rw [this]; exact hnn⟩
  · intro out h r hr
    have := formatYield_timestamp hts h r hr
    exact ⟨this, by rw [this]; exact hnn⟩
  · intro out h r hr
    have := formatStable_timestamp hts h r hr
    exact ⟨this, by rw [this]; exact hnn⟩
  · intro out h r hr
    have := formatFee_timestamp hts h r hr
    exact ⟨this, by rw [this]; exact hnn⟩
  · intro out h r hr
    by_cases hd : data.truthy
    · by_cases hdd : (jsGetOpt data "data").truthy
      · rcases formatDex_ok_parts hd hdd h with ⟨ts0, hl, dl, hts0, hh, hdp, hout⟩
        have heq : ts0 = ts := by
          rw [hts] at hts0
          injection hts0 with e
          exact e.symm
        subst heq
        subst hout
        rcases List.mem_append.mp hr with hr12 | hrc
        rcases List.mem_append.mp hr12 with hra | hrb
        · rcases histPart_mem hh r hra with ⟨iso, v, hshape⟩
          subst hshape
          exact ⟨rfl, fun htype => absurd (hist_shape_type iso v) (by rw [htype]; simp)⟩
        · rcases dexPart_mem hdp r hrb with ⟨c, d0, v, hshape⟩
          subst hshape
          rw [mkDexRec_timestamp]
          exact ⟨hnn, fun _ => rfl⟩
        · unfold summPart at hrc
          by_cases hg : ((jsGetOpt (jsGetOpt data "data") "protocols").truthy &&
              (jsAt0 (jsGetOpt (jsGetOpt data "data") "protocols")).truthy) = true
          · rw [if_pos hg] at hrc
            rcases List.mem_singleton.mp hrc with rfl
            rw [mkVolumeSummary_timestamp]
            exact ⟨hnn, fun _ => rfl⟩
          · rw [if_neg hg] at hrc
            simp at hrc
      · have hddf : (jsGetOpt data "data").truthy = false := by simpa using hdd
        unfold formatDexVolumeData at h
        rw [hd] at h
        simp [hddf] at h
        subst h
        simp at hr
    · have hdf : data.truthy = false := by simpa using hd
      unfold formatDexVolumeData at h
      rw [hdf] at h
      simp at h
      subst h
      simp at hr

/-- Claim C2 counterexample: on a well-formed document whose
totalDataChart is [[1460419200, 1000000]], the DEX rule emits a record
whose timestamp is the ISO rendering of the chart epoch, which differs
from the declared collection time of the document, so not every record
carries the collection time. -/
theorem claim2_counterexample :
    collectionTs chartDoc = .ok sampleTs ∧
    formatDexVolumeData chartDoc =
      .ok [.obj [("timestamp", .str "2016-04-12T00:00:00.000Z"),
        ("total_volume", .num 1000000), ("type", .str "historical_total")]] ∧
    JVal.str "2016-04-12T00:00:00.000Z" ≠ sampleTs := by
  refine ⟨rfl, rfl, ?_⟩
  intro h
  rw [show sampleTs = JVal.str "2025-04-15T22:09:43.110634" from rfl] at h
  injection h with h2
  exact absurd h2 (by decide)

/-- Claim C2 witness: the amended statement instantiated on the sample
TVL document, whose two records both carry the collection time. -/
theorem claim2_timestamps_witness :
    (jsGetOpt (JVal.obj (("timestamp", sampleTs) ::
        tvlFields (.obj [("name", .str "Aave"), ("tvl", .num 100)]))) "timestamp" =
      sampleTs ∧
      (jsGetOpt (JVal.obj (("timestamp", sampleTs) ::
        tvlFields (.obj [("name", .str "Aave"), ("tvl", .num 100)]))) "timestamp").isNullish =
      false) ∧
    (jsGetOpt (JVal.obj (("timestamp", sampleTs) ::
        tvlFields (.obj [("name", .str "Lido"), ("tvl", .num 200)]))) "timestamp" =
      sampleTs ∧
      (jsGetOpt (JVal.obj (("timestamp", sampleTs) ::
        tvlFields (.obj [("name", .str "Lido"), ("tvl", .num 200)]))) "timestamp").isNullish =
      false) :=
  ⟨(claim2_timestamps tvlDoc sampleTs rfl rfl).1 _ rfl _ (List.mem_cons_self _ _),
   (claim2_timestamps tvlDoc sampleTs rfl rfl).1 _ rfl _
     (List.mem_cons_of_mem _ (List.mem_cons_self _ _))⟩

/-- Claim C3: when the first protocol entry of a DEX volume document
has a breakdown24h mapping (of per-chain DEX-to-volume objects), the
dex_specific portion of the output is exactly one record per
(chain, DEX) pair of the breakdown of that first entry, in order,
each record built by mkDexRec from the volume of that pair and the
change figures of the first entry; no other protocol entry
contributes. -/
theorem claim3_dex_breakdown (data ts f : JVal) (bfs : List (String × JVal))
    (out : List JVal)
    (h1 : data.truthy = true)
    (h2 : (jsGetOpt data "data").truthy = true)
    (hts : collectionTs data = .ok ts)
    (hf : jsAt0 (jsGetOpt (jsGetOpt data "data") "protocols") = f)
    (hp : (jsGetOpt (jsGetOpt data "data") "protocols").truthy = true)
    (hft : f.truthy = true)
    (hb : jsGetOpt f "breakdown24h" = .obj bfs)
    (hvals : ∀ ce ∈ bfs, ce.2.isObj = true)
    (h : formatDexVolumeData data = .ok out) :
    out.filter (fun r => typeIs r "dex_specific") =
      (bfs.map (fun ce => (entriesT ce.2).map
        (fun dv => mkDexRec ts f ce.1 dv.1 dv.2))).flatten := by
  rcases formatDex_ok_parts h1 h2 h with ⟨ts0, hl, dl, hts0, hh, hdp, hout⟩
  have heq : ts = ts0 := by
    rw [hts] at hts0
    exact Except.ok.inj hts0
  subst heq
  have hfilter_dl : dl.filter (fun r => typeIs r "dex_specific") = dl := by
    rw [List.filter_eq_self]
    intro r hr
    rcases dexPart_mem hdp r hr with ⟨c, d0, v, hshape⟩
    subst hshape
    exact mkDexRec_type _ _ _ _ _
  have hdl : dl = (bfs.map (fun ce => (entriesT ce.2).map
      (fun dv => mkDexRec ts f ce.1 dv.1 dv.2))).flatten := by
    unfold dexPart at hdp
    dsimp only at hdp
    rw [hf, hb] at hdp
    rw [if_pos (by simp [hp, hft]; rfl)] at hdp
    rw [show entriesT (JVal.obj bfs) = bfs from rfl] at hdp
    rw [dexSection_all_obj (fun ce hce => isObj_not_nullish (hvals ce hce))] at hdp
    injection hdp with e
    exact e.symm
  subst hout
  rw [List.filter_append, List.filter_append, hfilter_dl]
  have hfilter_hl : hl.filter (fun r => typeIs r "dex_specific") = [] := by
    rw [List.filter_eq_nil_iff]
    intro r hr
    rcases histPart_mem hh r hr with ⟨iso, v, hshape⟩
    subst hshape
    simp [hist_shape_not_dex]
  have hfilter_s : (summPart ts (jsGetOpt data "data")).filter
      (fun r => typeIs r "dex_specific") = [] := by
    unfold summPart
    by_cases hg : ((jsGetOpt (jsGetOpt data "data") "protocols").truthy &&
        (jsAt0 (jsGetOpt (jsGetOpt data "data") "protocols")).truthy) = true
    · rw [if_pos hg]
      simp [List.filter, mkVolumeSummary_not_dex]
    · rw [if_neg hg]
      rfl
  rw [hfilter_hl, hfilter_s, hdl]
  simp

/-- Claim C3 witness: the spec example breakdown
ethereum -> (uniswap 500, curve 300) yields exactly two dex_specific
records with the matching volumes. -/
theorem claim3_dex_breakdown_witness :
    ([mkDexRec sampleTs dexFirst "ethereum" "uniswap" (.num 500),
      mkDexRec sampleTs dexFirst "ethereum" "curve" (.num 300),
      mkVolumeSummary sampleTs dexFirst].filter
        (fun r => typeIs r "dex_specific")) =
      [mkDexRec sampleTs dexFirst "ethereum" "uniswap" (.num 500),
       mkDexRec sampleTs dexFirst "ethereum" "curve" (.num 300)] :=
  claim3_dex_breakdown dexDoc sampleTs dexFirst
    [("ethereum", .obj [("uniswap", .num 500), ("curve", .num 300)])] _
    rfl rfl rfl rfl rfl rfl rfl (by decide) rfl

/-- Claim C7: the DEX volume rule emits exactly one volume_summary
record when the first protocol entry exists (the guard
protocols && protocols[0] passes) and none otherwise; the record is
mkVolumeSummary, whose fields are the windowed totals and change
percentages copied from the first protocol entry, and it comes after
all historical_total and dex_specific records (it is the last record
of the output). -/
theorem claim7_volume_summary (data ts : JVal) (out : List JVal)
    (h1 : data.truthy = true)
    (h2 : (jsGetOpt data "data").truthy = true)
    (hts : collectionTs data = .ok ts)
    (h : formatDexVolumeData data = .ok out) :
    (((jsGetOpt (jsGetOpt data "data") "protocols").truthy &&
        (jsAt0 (jsGetOpt (jsGetOpt data "data") "protocols")).truthy) = true →
      out.filter (fun r => typeIs r "volume_summary") =
        [mkVolumeSummary ts (jsAt0 (jsGetOpt (jsGetOpt data "data") "protocols"))] ∧
      out.getLast? =
        some (mkVolumeSummary ts (jsAt0 (jsGetOpt (jsGetOpt data "data") "protocols")))) ∧
    (((jsGetOpt (jsGetOpt data "data") "protocols").truthy &&
        (jsAt0 (jsGetOpt (jsGetOpt data "data") "protocols")).truthy) = false →
      out.filter (fun r => typeIs r "volume_summary") = []) := by
  rcases formatDex_ok_parts h1 h2 h with ⟨ts0, hl, dl, hts0, hh, hdp, hout⟩
  have heq : ts = ts0 := by
    rw [hts] at hts0
    exact Except.ok.inj hts0
  subst heq
  subst hout
  have hfilter_hl : hl.filter (fun r => typeIs r "volume_summary") = [] := by
    rw [List.filter_eq_nil_iff]
    intro r hr
    rcases histPart_mem hh r hr with ⟨iso, v, hshape⟩
    subst hshape
    simp [hist_shape_not_summ]
  have hfilter_dl : dl.filter (fun r => typeIs r "volume_summary") = [] := by
    rw [List.filter_eq_nil_iff]
    intro r hr
    rcases dexPart_mem hdp r hr with ⟨c, d0, v, hshape⟩
    subst hshape
    simp [mkDexRec_not_summ]
  constructor
  · intro hg
    have hs : summPart ts (jsGetOpt data "data") =
        [mkVolumeSummary ts (jsAt0 (jsGetOpt (jsGetOpt data "data") "protocols"))] := by
      unfold summPart
      rw [if_pos hg]
    constructor
    · rw [List.filter_append, List.filter_append, hfilter_hl, hfilter_dl, hs]
      simp [List.filter, mkVolumeSummary_type]
    · rw [hs, List.append_assoc, List.getLast?_append_of_ne_nil, List.getLast?_append_of_ne_nil]
      · rfl
      · simp
      · simp
  · intro hg
    have hs : summPart ts (jsGetOpt data "data") = [] := by
      unfold summPart
      rw [if_neg (by rw [hg]; simp)]
    rw [List.filter_append, List.filter_append, hfilter_hl, hfilter_dl, hs]
    rfl

/-- Claim C7 witness: the sample DEX document (one protocol entry)
yields a single volume_summary record carrying the totals of the
first entry, placed last. -/
theorem claim7_volume_summary_witness :
    ([mkDexRec sampleTs dexFirst "ethereum" "uniswap" (.num 500),
      mkDexRec sampleTs dexFirst "ethereum" "curve" (.num 300),
      mkVolumeSummary sampleTs dexFirst].filter
        (fun r => typeIs r "volume_summary")) =
      [mkVolumeSummary sampleTs dexFirst] ∧
    ([mkDexRec sampleTs dexFirst "ethereum" "uniswap" (.num 500),
      mkDexRec sampleTs dexFirst "ethereum" "curve" (.num 300),
      mkVolumeSummary sampleTs dexFirst] : List JVal).getLast? =
      some (mkVolumeSummary sampleTs dexFirst) :=
  (claim7_volume_summary dexDoc sampleTs _ rfl rfl rfl rfl).1 rfl
